import Mathlib

/-!
# Verification of the markdown-viewer backend routes

Shallow embedding of the three API route handlers of the markdown-viewer
repository (`src/app/api/pr/route.ts`, `src/app/api/repo/tree/route.ts`,
`src/app/api/repo/file/route.ts`) together with theorems settling the
frozen claims about them.

The GitHub provider (octokit) is modelled as an oracle structure whose
fields hold the outcome of each REST call; handlers additionally return
the list of provider calls they performed, so that side-effect claims
("performs no branch/commit/PR calls") are statable.

Optional JSON/query-string inputs are modelled as `Option String` where the
source distinguishes absence, and as `String` (with `""` for absent) where
the source only ever applies a JavaScript truthiness check, under which
`undefined` and `""` behave identically.
-/

namespace MdViewer

/-! ## Platform builtins: base64 and UTF-8 (Node `Buffer`)

Modelled from the platform: `Buffer.from(s, 'base64')`,
`Buffer.from(s, 'utf-8')`, `buf.toString('utf-8')`, `buf.toString('base64')`
as used by the route handlers. Malformed UTF-8 input decodes to U+FFFD
replacement characters (approximating Node's policy; the handlers only ever
receive well-formed data). -/

/-- Value of a base64 alphabet character, `none` for characters outside the
alphabet (padding `=` and whitespace are skipped, as Node does). -/
def b64Val (c : Char) : Option Nat :=
  if 'A' ≤ c ∧ c ≤ 'Z' then some (c.toNat - 'A'.toNat)
  else if 'a' ≤ c ∧ c ≤ 'z' then some (c.toNat - 'a'.toNat + 26)
  else if '0' ≤ c ∧ c ≤ '9' then some (c.toNat - '0'.toNat + 52)
  else if c = '+' then some 62
  else if c = '/' then some 63
  else none

/-- Reassemble a stream of 6-bit groups into 8-bit bytes. -/
def b64SixbitsToBytes : List Nat → List Nat
  | a :: b :: c :: d :: rest =>
      (a * 4 + b / 16) :: ((b % 16) * 16 + c / 4) :: ((c % 4) * 64 + d) ::
        b64SixbitsToBytes rest
  | [a, b] => [a * 4 + b / 16]
  | [a, b, c] => [a * 4 + b / 16, (b % 16) * 16 + c / 4]
  | _ => []

/-- Base64-decode a string to a byte sequence. -/
def decodeBase64 (s : String) : List Nat :=
  b64SixbitsToBytes (s.toList.filterMap b64Val)

/-- Is `b` a UTF-8 continuation byte (`10xxxxxx`)? -/
def isContByte (b : Nat) : Bool := 0x80 ≤ b && b < 0xC0

/-- Consume one UTF-8 sequence starting with lead byte `b`: the decoded
character (U+FFFD on a malformed sequence) and the remaining bytes. -/
def utf8Step (b : Nat) (rest : List Nat) : Char × List Nat :=
  if b < 0x80 then (Char.ofNat b, rest)
  else if b < 0xC2 then ('�', rest)
  else if b < 0xE0 then
    match rest with
    | b1 :: rest1 =>
      if isContByte b1 then (Char.ofNat ((b - 0xC0) * 64 + (b1 - 0x80)), rest1)
      else ('�', b1 :: rest1)
    | [] => ('�', [])
  else if b < 0xF0 then
    match rest with
    | b1 :: b2 :: rest2 =>
      if isContByte b1 && isContByte b2 then
        let v := (b - 0xE0) * 4096 + (b1 - 0x80) * 64 + (b2 - 0x80)
        if v < 0x800 || (0xD800 ≤ v && v < 0xE000) then ('�', rest2)
        else (Char.ofNat v, rest2)
      else ('�', b1 :: b2 :: rest2)
    | [b1] => ('�', [b1])
    | [] => ('�', [])
  else if b < 0xF5 then
    match rest with
    | b1 :: b2 :: b3 :: rest3 =>
      if isContByte b1 && isContByte b2 && isContByte b3 then
        let v := (b - 0xF0) * 262144 + (b1 - 0x80) * 4096 +
          (b2 - 0x80) * 64 + (b3 - 0x80)
        if v < 0x10000 || 0x110000 ≤ v then ('�', rest3)
        else (Char.ofNat v, rest3)
      else ('�', b1 :: b2 :: b3 :: rest3)
    | other => ('�', other)
  else ('�', rest)

/-- Iterate `utf8Step`; the fuel is only there to make the recursion
structural and never runs out when it starts at the list's length
(each step consumes at least the lead byte, `utf8Step_snd_length_le`). -/
def utf8DecodeLoop : Nat → List Nat → List Char
  | _, [] => []
  | 0, _ => []
  | fuel + 1, b :: rest =>
      (utf8Step b rest).1 :: utf8DecodeLoop fuel (utf8Step b rest).2

/-- Decode a UTF-8 byte sequence to characters, emitting U+FFFD on
malformed sequences. -/
def utf8DecodeBytes (l : List Nat) : List Char :=
  utf8DecodeLoop l.length l

/-- `Buffer.from(s, 'base64').toString('utf-8')`. -/
def decodeBase64Utf8 (s : String) : String :=
  String.mk (utf8DecodeBytes (decodeBase64 s))

/-- UTF-8 encode one character. -/
def utf8EncodeCharBytes (c : Char) : List Nat :=
  let n := c.toNat
  if n < 0x80 then [n]
  else if n < 0x800 then [0xC0 + n / 64, 0x80 + n % 64]
  else if n < 0x10000 then [0xE0 + n / 4096, 0x80 + n / 64 % 64, 0x80 + n % 64]
  else [0xF0 + n / 262144, 0x80 + n / 4096 % 64, 0x80 + n / 64 % 64, 0x80 + n % 64]

/-- Character of the base64 alphabet for a 6-bit value. -/
def b64Char (n : Nat) : Char :=
  if n < 26 then Char.ofNat ('A'.toNat + n)
  else if n < 52 then Char.ofNat ('a'.toNat + (n - 26))
  else if n < 62 then Char.ofNat ('0'.toNat + (n - 52))
  else if n = 62 then '+'
  else '/'

/-- Base64-encode a byte sequence (with `=` padding). -/
def b64EncodeBytes : List Nat → List Char
  | [] => []
  | [a] => [b64Char (a / 4), b64Char ((a % 4) * 16), '=', '=']
  | [a, b] => [b64Char (a / 4), b64Char ((a % 4) * 16 + b / 16),
      b64Char ((b % 16) * 4), '=']
  | a :: b :: c :: rest =>
      b64Char (a / 4) :: b64Char ((a % 4) * 16 + b / 16) ::
        b64Char ((b % 16) * 4 + c / 64) :: b64Char (c % 64) :: b64EncodeBytes rest

/-- `Buffer.from(s, 'utf-8').toString('base64')`. -/
def encodeUtf8Base64 (s : String) : String :=
  String.mk (b64EncodeBytes ((s.toList.map utf8EncodeCharBytes).flatten))

/-! ## Branch-name generation (`createBranchSlug` in `src/app/api/pr/route.ts`)

The source reads the clock (`new Date()`); the embedding takes the clock
reading as an explicit `DateParts` argument. -/

/-- The character class `[a-zA-Z0-9-]` kept by the slug regex
`.replace(/[^a-zA-Z0-9\-]/g, '')`. -/
def isSlugKeep (c : Char) : Bool :=
  ('a' ≤ c && c ≤ 'z') || ('A' ≤ c && c ≤ 'Z') || ('0' ≤ c && c ≤ '9') || c = '-'

/-- The slug part of `createBranchSlug`: replace `/` with `-`, drop
characters outside `[a-zA-Z0-9-]`, lowercase, truncate to 40. -/
def slugify (path : String) : String :=
  String.mk ((((path.toList.map fun c => if c = '/' then '-' else c).filter
    isSlugKeep).map Char.toLower).take 40)

/-- The fields of a UTC clock reading, as printed by `Date.toISOString`
(month and day 1-based). -/
structure DateParts where
  year : Nat
  month : Nat
  day : Nat
  hour : Nat
  minute : Nat
  second : Nat
  millis : Nat
deriving DecidableEq

/-- Two-digit zero-padded decimal (modulo 100), as in ISO-8601 fields. -/
def pad2 (n : Nat) : String :=
  String.mk [Nat.digitChar (n / 10 % 10), Nat.digitChar (n % 10)]

/-- Three-digit zero-padded decimal (modulo 1000). -/
def pad3 (n : Nat) : String :=
  String.mk [Nat.digitChar (n / 100 % 10), Nat.digitChar (n / 10 % 10),
    Nat.digitChar (n % 10)]

/-- Four-digit zero-padded decimal (modulo 10000). -/
def pad4 (n : Nat) : String :=
  String.mk [Nat.digitChar (n / 1000 % 10), Nat.digitChar (n / 100 % 10),
    Nat.digitChar (n / 10 % 10), Nat.digitChar (n % 10)]

/-- Modelled from the platform: `Date.prototype.toISOString`, e.g.
`2024-01-02T03:04:05.006Z` (for in-range dates with four-digit years). -/
def toISOString (d : DateParts) : String :=
  pad4 d.year ++ "-" ++ pad2 d.month ++ "-" ++ pad2 d.day ++ "T" ++
    pad2 d.hour ++ ":" ++ pad2 d.minute ++ ":" ++ pad2 d.second ++ "." ++
    pad3 d.millis ++ "Z"

/-- `.replace(/[:\-]/g, '')`: drop every colon and hyphen. -/
def removeColonDash (cs : List Char) : List Char :=
  cs.filter fun c => !(c == ':' || c == '-')

/-- `.replace(/\..+/, '')` on a newline-free string: drop everything from
the first dot on, provided at least one character follows that dot. -/
def dropDotRest : List Char → List Char
  | [] => []
  | c :: rest =>
    if c = '.' then (if rest.isEmpty then [c] else [])
    else c :: dropDotRest rest

/-- `.replace('T', '-')`: replace the first `T` with `-`. -/
def replaceFirstT : List Char → List Char
  | [] => []
  | c :: rest => if c = 'T' then '-' :: rest else c :: replaceFirstT rest

/-- The timestamp component of `createBranchSlug`. -/
def isoTimestamp (d : DateParts) : String :=
  String.mk (replaceFirstT (dropDotRest (removeColonDash (toISOString d).toList)))

/-- `createBranchSlug` from `src/app/api/pr/route.ts`, with the clock
reading explicit. -/
def createBranchSlug (path : String) (now : DateParts) : String :=
  "docs/" ++ slugify path ++ "-" ++ isoTimestamp now

/-! ## JavaScript string comparison

`Array.prototype.sort()` without a comparator sorts strings by comparing
code-unit sequences lexicographically. `charsLt` is that strict
comparison on character lists; `jsLe` the non-strict order on strings
derived from it. `charsLt` agrees with the standard lexicographic order
`List.lt` (`charsLt_iff_lt` below). -/

/-- Strict lexicographic comparison of character lists. -/
def charsLt : List Char → List Char → Bool
  | _, [] => false
  | [], _ :: _ => true
  | a :: as, b :: bs => a < b || (a == b && charsLt as bs)

/-- Non-strict string comparison: `a` does not sort after `b`. -/
@[reducible] def jsLe (a b : String) : Prop :=
  charsLt b.toList a.toList = false

/-- `String.prototype.endsWith`. -/
def endsWithStr (s suffixStr : String) : Bool :=
  suffixStr.toList.isSuffixOf s.toList

/-! ## Provider (octokit) model -/

/-- An error thrown by a provider call: the fields the handlers' catch
blocks inspect (`error.status`, `error.response?.headers?.['x-ratelimit-remaining']`,
`error.message`). -/
structure GhError where
  status : Option Nat
  ratelimitRemaining : Option String
  message : Option String
deriving DecidableEq

/-- The payload of `repos.getContent`: either a directory listing
(`Array.isArray(data)`) or a single entry with its `type`, base64
`content`, `sha`, `name` and `path`. -/
inductive ContentData where
  | listing : ContentData
  | entry (type content sha name path : String) : ContentData
deriving DecidableEq

/-- One entry of the recursive tree returned by `git.getTree`.
An absent `path` is modelled as `""` (the source only applies a
truthiness check to it). -/
structure TreeItem where
  path : String
  type : String
deriving DecidableEq

/-- The `pulls.create` response fields the handler reads. -/
structure PullData where
  html_url : String
  number : Nat
deriving DecidableEq

/-! ## Tree route (`src/app/api/repo/tree/route.ts`) -/

/-- Outcomes of the provider calls made by the tree route: `getRepo`
yields the repo's default branch, `getRef` the branch tip SHA, `getTree`
the recursive tree. -/
structure TreeProvider where
  getRepo : Except GhError String
  getRef : Except GhError String
  getTree : Except GhError (List TreeItem)

/-- Response of the tree route. -/
inductive TreeResp where
  | err (status : Nat) (msg : String)
  | ok (branch : String) (files : List String)
deriving DecidableEq

/-- JavaScript truthiness test for an optional query parameter:
`null`/absent and `""` are both falsy. -/
def blankParam : Option String → Bool
  | none => true
  | some s => s == ""

/-- The catch block of the tree route. -/
def treeCatch (e : GhError) : TreeResp :=
  if e.status = some 404 then
    .err 404 "Repository not found or branch does not exist"
  else if e.status = some 403 then
    .err 403 "Rate limit exceeded. Consider adding a GITHUB_TOKEN to .env.local"
  else .err 500 "Failed to fetch repository tree"

/-- `GET /api/repo/tree`. -/
def treeGet (owner repo branch : Option String) (p : TreeProvider) : TreeResp :=
  if blankParam owner || blankParam repo then
    .err 400 "owner and repo are required"
  else
    match (if blankParam branch then p.getRepo else .ok (branch.getD "")) with
    | .error e => treeCatch e
    | .ok b =>
      match p.getRef with
      | .error e => treeCatch e
      | .ok _sha =>
        match p.getTree with
        | .error e => treeCatch e
        | .ok tree =>
          let markdownFiles :=
            List.insertionSort jsLe
              ((tree.filter fun item =>
                item.type == "blob" && item.path != "" &&
                  (endsWithStr item.path ".md" || endsWithStr item.path ".markdown")).map
                TreeItem.path)
          .ok b markdownFiles

/-! ## File route (`src/app/api/repo/file/route.ts`) -/

/-- Outcome of the single provider call made by the file route. -/
structure FileProvider where
  getContent : Except GhError ContentData

/-- Response of the file route. -/
inductive FileResp where
  | err (status : Nat) (msg : String)
  | ok (markdown sha name path : String)
deriving DecidableEq

/-- The catch block of the file route. -/
def fileCatch (e : GhError) : FileResp :=
  if e.status = some 404 then .err 404 "File not found"
  else if e.status = some 403 then
    .err 403 "Rate limit exceeded. Consider adding a GITHUB_TOKEN to .env.local"
  else .err 500 "Failed to fetch file content"

/-- `GET /api/repo/file`. -/
def fileGet (owner repo path _ref : Option String) (p : FileProvider) : FileResp :=
  if blankParam owner || blankParam repo || blankParam path then
    .err 400 "owner, repo, and path are required"
  else
    match p.getContent with
    | .error e => fileCatch e
    | .ok data =>
      match data with
      | .listing => .err 400 "Not a file"
      | .entry ty content sha name pth =>
        if ty ≠ "file" then .err 400 "Not a file"
        else .ok (decodeBase64Utf8 content) sha name pth

/-! ## Publish route (`POST` in `src/app/api/pr/route.ts`)

The handler is embedded as a function returning both the HTTP response and
the ordered list of provider calls it performed, so that claims about
absent side effects are statable. -/

/-- A provider call performed by the publish handler, with the arguments
relevant to the claims. -/
inductive PCall where
  | getRepo
  | getContent (ref : String)
  | getRef (branch : String)
  | createRef (ref sha : String)
  | createFile (path message content branch sha : String)
  | createPull (title body head base : String)
deriving DecidableEq

/-- The parsed request body. Fields the source checks only for JavaScript
truthiness (`owner`, `repo`, `path`, `baseSha`, `markdown`, and the
optional `baseBranch`, `prTitle`, `prBody`) are plain strings with `""`
standing for an absent field, which the source treats identically. -/
structure CreatePRRequest where
  owner : String
  repo : String
  path : String
  baseBranch : String
  baseSha : String
  markdown : String
  prTitle : String
  prBody : String
deriving DecidableEq

/-- Outcomes of the provider calls the publish handler can make. -/
structure PublishProvider where
  getRepo : Except GhError String
  getContent : Except GhError ContentData
  getRef : Except GhError String
  createRef : Except GhError Unit
  createFile : Except GhError Unit
  createPull : Except GhError PullData

/-- JSON body of a publish response: a bare error, the step-3 conflict
payload (error plus upstream SHA and decoded upstream Markdown), or the
success payload. -/
inductive RespBody where
  | err (error : String)
  | conflict (error upstreamSha upstreamMarkdown : String)
  | success (prUrl : String) (prNumber : Nat)
deriving DecidableEq

/-- An HTTP response: status code plus JSON body. -/
structure HttpResp where
  status : Nat
  body : RespBody
deriving DecidableEq

/-- `String.prototype.includes` on character lists: does `needle` occur
contiguously in the second list? -/
def charsContain (needle : List Char) : List Char → Bool
  | [] => needle.isEmpty
  | c :: rest => needle.isPrefixOf (c :: rest) || charsContain needle rest

/-- The rate-limit test of the catch block:
`error.response?.headers?.['x-ratelimit-remaining'] === '0' ||
error.message?.includes('rate limit')`. -/
def hasRateLimitSignal (e : GhError) : Bool :=
  e.ratelimitRemaining == some "0" ||
    (match e.message with
     | some m => charsContain "rate limit".toList m.toList
     | none => false)

/-- The catch block of the publish handler. -/
def classifyPublishError (e : GhError) : HttpResp :=
  if e.status = some 401 then ⟨401, .err "Unauthorized or insufficient scope"⟩
  else if e.status = some 403 then
    if hasRateLimitSignal e then ⟨429, .err "Rate limit exceeded"⟩
    else ⟨403, .err "Unauthorized or insufficient scope"⟩
  else if e.status = some 404 then ⟨404, .err "Repo or path not found"⟩
  else if e.status = some 409 then ⟨409, .err "File changed upstream"⟩
  else ⟨500, .err "Failed to create pull request"⟩

/-- Step 1 of the handler: `baseBranch`, or the provider's default branch
when `baseBranch` is falsy. -/
def resolveBaseBranch (req : CreatePRRequest) (p : PublishProvider) :
    Except GhError String :=
  if req.baseBranch = "" then p.getRepo else .ok req.baseBranch

/-- The provider calls performed by step 1. -/
def resolveBaseTrace (req : CreatePRRequest) : List PCall :=
  if req.baseBranch = "" then [.getRepo] else []

/-- `POST /api/pr`: the full publish flow, returning the performed
provider calls and the HTTP response. -/
def publish (req : CreatePRRequest) (now : DateParts) (p : PublishProvider) :
    List PCall × HttpResp :=
  if req.owner = "" ∨ req.repo = "" ∨ req.path = "" ∨ req.baseSha = "" ∨
      req.markdown = "" then
    ([], ⟨400, .err "owner, repo, path, baseSha, and markdown are required"⟩)
  else
    let t1 := resolveBaseTrace req
    match resolveBaseBranch req p with
    | .error e => (t1, classifyPublishError e)
    | .ok resolvedBaseBranch =>
      let t2 := t1 ++ [PCall.getContent resolvedBaseBranch]
      match p.getContent with
      | .error e => (t2, classifyPublishError e)
      | .ok currentFile =>
        match currentFile with
        | .listing => (t2, ⟨400, .err "Path is not a file"⟩)
        | .entry ty content currentSha _name _path =>
          if ty ≠ "file" then (t2, ⟨400, .err "Path is not a file"⟩)
          else if currentSha ≠ req.baseSha then
            (t2, ⟨409, .conflict "File changed upstream" currentSha
              (decodeBase64Utf8 content)⟩)
          else
            let t3 := t2 ++ [PCall.getRef resolvedBaseBranch]
            match p.getRef with
            | .error e => (t3, classifyPublishError e)
            | .ok baseCommitSha =>
              let newBranchName := createBranchSlug req.path now
              let t4 := t3 ++ [PCall.createRef newBranchName baseCommitSha]
              match p.createRef with
              | .error e => (t4, classifyPublishError e)
              | .ok _ =>
                let commitMessage := "docs: update " ++ req.path ++ " via editor"
                let t5 := t4 ++ [PCall.createFile req.path commitMessage
                  (encodeUtf8Base64 req.markdown) newBranchName currentSha]
                match p.createFile with
                | .error e => (t5, classifyPublishError e)
                | .ok _ =>
                  let title := if req.prTitle = "" then "Update " ++ req.path
                    else req.prTitle
                  let prBody := if req.prBody = "" then "Edited via Notion-like editor"
                    else req.prBody
                  let t6 := t5 ++ [PCall.createPull title prBody newBranchName
                    resolvedBaseBranch]
                  match p.createPull with
                  | .error e => (t6, classifyPublishError e)
                  | .ok prData => (t6, ⟨200, .success prData.html_url prData.number⟩)

/-! ## Concrete sample data, used by the witnesses below -/

/-- A sample clock reading: 2024-01-02T03:04:05.006Z. -/
def sampleNow : DateParts := ⟨2024, 1, 2, 3, 4, 5, 6⟩

/-- A publish request whose `baseSha` matches the sample provider's
upstream SHA. -/
def sampleReq : CreatePRRequest := ⟨"o", "r", "f.md", "main", "sha2", "md", "", ""⟩

/-- A publish request edited against a stale baseline (`baseSha` differs
from the sample provider's upstream SHA). -/
def sampleReqStale : CreatePRRequest :=
  ⟨"o", "r", "f.md", "main", "sha1", "md", "", ""⟩

/-- A provider on which every call succeeds; the upstream file has SHA
`sha2` and base64 content `SGk=` (decoding to `Hi`). -/
def sampleProvider : PublishProvider :=
  ⟨.ok "dflt", .ok (.entry "file" "SGk=" "sha2" "f.md" "f.md"), .ok "c0",
   .ok (), .ok (), .ok ⟨"u", 7⟩⟩

/-- A 403 provider error carrying the rate-limit header signal. -/
def sampleErr403 : GhError := ⟨some 403, some "0", none⟩

/-- A 409 provider error. -/
def sampleErr409 : GhError := ⟨some 409, none, none⟩

/-- A provider whose get-content call fails with `sampleErr403`. -/
def sampleProviderContentErr : PublishProvider :=
  ⟨.ok "dflt", .error sampleErr403, .ok "c0", .ok (), .ok (), .ok ⟨"u", 7⟩⟩

/-- A provider whose create-ref call fails with `sampleErr409`. -/
def sampleProviderRefConflict : PublishProvider :=
  ⟨.ok "dflt", .ok (.entry "file" "SGk=" "sha2" "f.md" "f.md"), .ok "c0",
   .error sampleErr409, .ok (), .ok ⟨"u", 7⟩⟩

/-- A sample tree with blob and non-blob entries, markdown and
non-markdown paths. -/
def sampleTreeItems : List TreeItem :=
  [⟨"b.md", "blob"⟩, ⟨"a.md", "blob"⟩, ⟨"c.txt", "blob"⟩, ⟨"d.md", "tree"⟩,
   ⟨"x.markdown", "blob"⟩]

/-- A tree provider serving `sampleTreeItems` with default branch `main`. -/
def sampleTreeProvider : TreeProvider :=
  ⟨.ok "main", .ok "tip", .ok sampleTreeItems⟩

/-- A file provider whose path resolves to a directory listing. -/
def sampleDirProvider : FileProvider := ⟨.ok .listing⟩

/-! ## Helper lemmas -/

theorem utf8Step_snd_length_le (b : Nat) (rest : List Nat) :
    (utf8Step b rest).2.length ≤ rest.length := by
  simp only [utf8Step]
  repeat' split
  all_goals simp_all
  all_goals omega

theorem charsLt_irrefl : ∀ x : List Char, charsLt x x = false
  | [] => rfl
  | a :: as => by
    simp [charsLt, charsLt_irrefl as]

theorem charsLt_trans : ∀ x y z : List Char,
    charsLt x y = true → charsLt y z = true → charsLt x z = true
  | _, _, [] , _, h2 => by simp [charsLt] at h2
  | [], _ :: _, _ :: _, _, _ => rfl
  | _ :: _, [], _, h1, _ => by simp [charsLt] at h1
  | a :: as, b :: bs, c :: cs, h1, h2 => by
    simp only [charsLt, Bool.or_eq_true, Bool.and_eq_true, beq_iff_eq,
      decide_eq_true_eq] at h1 h2 ⊢
    rcases h1 with h1 | ⟨rfl, h1⟩
    · rcases h2 with h2 | ⟨rfl, _⟩
      · exact Or.inl (lt_trans h1 h2)
      · exact Or.inl h1
    · rcases h2 with h2 | ⟨rfl, h2⟩
      · exact Or.inl h2
      · exact Or.inr ⟨rfl, charsLt_trans as bs cs h1 h2⟩

theorem charsLt_trichotomy : ∀ x y : List Char,
    charsLt x y = true ∨ charsLt y x = true ∨ x = y
  | [], [] => Or.inr (Or.inr rfl)
  | [], _ :: _ => Or.inl rfl
  | _ :: _, [] => Or.inr (Or.inl rfl)
  | a :: as, b :: bs => by
    simp only [charsLt, Bool.or_eq_true, Bool.and_eq_true, beq_iff_eq,
      decide_eq_true_eq, List.cons.injEq]
    rcases lt_trichotomy a b with h | rfl | h
    · exact Or.inl (Or.inl h)
    · rcases charsLt_trichotomy as bs with h | h | rfl
      · exact Or.inl (Or.inr ⟨rfl, h⟩)
      · exact Or.inr (Or.inl (Or.inr ⟨rfl, h⟩))
      · exact Or.inr (Or.inr ⟨rfl, rfl⟩)
    · exact Or.inr (Or.inl (Or.inl h))

theorem charsLt_asymm (x y : List Char) (h : charsLt x y = true) :
    charsLt y x = false := by
  cases hyx : charsLt y x
  · rfl
  · have hxx := charsLt_trans x y x h hyx
    rw [charsLt_irrefl] at hxx
    exact Bool.noConfusion hxx

theorem jsLe_total (a b : String) : jsLe a b ∨ jsLe b a := by
  unfold jsLe
  rcases charsLt_trichotomy b.toList a.toList with h | h | h
  · exact Or.inr (charsLt_asymm _ _ h)
  · exact Or.inl (charsLt_asymm _ _ h)
  · left
    rw [h, charsLt_irrefl]

theorem jsLe_trans (a b c : String) (hab : jsLe a b) (hbc : jsLe b c) :
    jsLe a c := by
  unfold jsLe at hab hbc ⊢
  cases hca : charsLt c.toList a.toList
  · rfl
  · exfalso
    rcases charsLt_trichotomy a.toList b.toList with h | h | h
    · rw [charsLt_trans _ _ _ hca h] at hbc
      exact Bool.noConfusion hbc
    · rw [h] at hab
      exact Bool.noConfusion hab
    · rw [h] at hca
      rw [hca] at hbc
      exact Bool.noConfusion hbc

theorem charsLt_of_lt : ∀ {x y : List Char}, List.lt x y → charsLt x y = true
  | _, _, .nil _ _ => rfl
  | _, _, .head _ _ h => by
    simp [charsLt, h]
  | _, _, .tail h1 h2 hlt => by
    have heq := le_antisymm (not_lt.mp h2) (not_lt.mp h1)
    simp [charsLt, heq, charsLt_of_lt hlt]

theorem jsLe_imp_le (a b : String) (h : jsLe a b) : a ≤ b := by
  intro hlt
  have hlex : List.Lex (· < ·) b.toList a.toList := String.lt_iff_toList_lt.mp hlt
  have hlt' : List.lt b.toList a.toList := (List.lt_iff_lex_lt _ _).mpr hlex
  unfold jsLe at h
  rw [charsLt_of_lt hlt'] at h
  exact Bool.noConfusion h

theorem charLe_iff_toNat {a b : Char} : a ≤ b ↔ a.toNat ≤ b.toNat :=
  Iff.rfl

theorem toNat_ofNat_valid {n : Nat} (h : n < 55296) : (Char.ofNat n).toNat = n := by
  have hv : n.isValidChar := Or.inl h
  rw [Char.ofNat, dif_pos hv]
  rfl

theorem toLower_eq_of_not_upper {c : Char}
    (h : ¬(65 ≤ c.toNat ∧ c.toNat ≤ 90)) : Char.toLower c = c := by
  unfold Char.toLower
  exact if_neg h

theorem toLower_toNat_of_upper {c : Char} (h1 : 65 ≤ c.toNat) (h2 : c.toNat ≤ 90) :
    (Char.toLower c).toNat = c.toNat + 32 := by
  unfold Char.toLower
  rw [if_pos ⟨h1, h2⟩]
  exact toNat_ofNat_valid (by omega)

theorem slugify_length_le (path : String) : (slugify path).length ≤ 40 := by
  have h : (slugify path).length =
      ((((path.toList.map fun c => if c = '/' then '-' else c).filter
        isSlugKeep).map Char.toLower).take 40).length := rfl
  rw [h, List.length_take]
  exact min_le_left _ _

theorem slugify_chars (path : String) :
    ∀ c ∈ (slugify path).toList,
      ('a' ≤ c ∧ c ≤ 'z') ∨ ('0' ≤ c ∧ c ≤ '9') ∨ c = '-' := by
  intro c hc
  have hc' : c ∈ ((path.toList.map fun x => if x = '/' then '-' else x).filter
      isSlugKeep).map Char.toLower := List.mem_of_mem_take hc
  rw [List.mem_map] at hc'
  obtain ⟨d, hd, rfl⟩ := hc'
  rw [List.mem_filter] at hd
  have hkeep := hd.2
  simp only [isSlugKeep, Bool.or_eq_true, Bool.and_eq_true, decide_eq_true_eq,
    beq_iff_eq] at hkeep
  rcases hkeep with ((⟨h1, h2⟩ | ⟨h1, h2⟩) | ⟨h1, h2⟩) | rfl
  · rw [charLe_iff_toNat] at h1 h2
    have h1' : 97 ≤ d.toNat := h1
    have h2' : d.toNat ≤ 122 := h2
    rw [toLower_eq_of_not_upper (by omega)]
    left
    rw [charLe_iff_toNat, charLe_iff_toNat]
    exact ⟨h1', h2'⟩
  · rw [charLe_iff_toNat] at h1 h2
    have h1' : 65 ≤ d.toNat := h1
    have h2' : d.toNat ≤ 90 := h2
    left
    rw [charLe_iff_toNat, charLe_iff_toNat, toLower_toNat_of_upper h1' h2']
    have ea : 'a'.toNat = 97 := rfl
    have ez : 'z'.toNat = 122 := rfl
    rw [ea, ez]
    omega
  · rw [charLe_iff_toNat] at h1 h2
    have h1' : 48 ≤ d.toNat := h1
    have h2' : d.toNat ≤ 57 := h2
    rw [toLower_eq_of_not_upper (by omega)]
    right; left
    rw [charLe_iff_toNat, charLe_iff_toNat]
    exact ⟨h1', h2'⟩
  · right; right
    decide

theorem digitChar_not_special (n : Nat) :
    Nat.digitChar n ≠ ':' ∧ Nat.digitChar n ≠ '-' ∧
      Nat.digitChar n ≠ '.' ∧ Nat.digitChar n ≠ 'T' := by
  rcases Nat.lt_or_ge n 16 with h | h
  · interval_cases n <;> decide
  · unfold Nat.digitChar
    rw [if_neg (by omega : ¬n = 0), if_neg (by omega : ¬n = 1),
      if_neg (by omega : ¬n = 2), if_neg (by omega : ¬n = 3),
      if_neg (by omega : ¬n = 4), if_neg (by omega : ¬n = 5),
      if_neg (by omega : ¬n = 6), if_neg (by omega : ¬n = 7),
      if_neg (by omega : ¬n = 8), if_neg (by omega : ¬n = 9),
      if_neg (by omega : ¬n = 10), if_neg (by omega : ¬n = 11),
      if_neg (by omega : ¬n = 12), if_neg (by omega : ¬n = 13),
      if_neg (by omega : ¬n = 14), if_neg (by omega : ¬n = 15)]
    decide

theorem digitChar_beq_special (n : Nat) :
    (Nat.digitChar n == ':') = false ∧ (Nat.digitChar n == '-') = false ∧
      (Nat.digitChar n == '.') = false ∧ (Nat.digitChar n == 'T') = false := by
  have h := digitChar_not_special n
  refine ⟨?_, ?_, ?_, ?_⟩ <;> rw [beq_eq_false_iff_ne]
  exacts [h.1, h.2.1, h.2.2.1, h.2.2.2]

theorem isoTimestamp_eq (d : DateParts) :
    isoTimestamp d = String.mk
      [Nat.digitChar (d.year / 1000 % 10), Nat.digitChar (d.year / 100 % 10),
       Nat.digitChar (d.year / 10 % 10), Nat.digitChar (d.year % 10),
       Nat.digitChar (d.month / 10 % 10), Nat.digitChar (d.month % 10),
       Nat.digitChar (d.day / 10 % 10), Nat.digitChar (d.day % 10), '-',
       Nat.digitChar (d.hour / 10 % 10), Nat.digitChar (d.hour % 10),
       Nat.digitChar (d.minute / 10 % 10), Nat.digitChar (d.minute % 10),
       Nat.digitChar (d.second / 10 % 10), Nat.digitChar (d.second % 10)] := by
  have h3 := fun m => (digitChar_not_special m).2.2.1
  have h4 := fun m => (digitChar_not_special m).2.2.2
  have b1 := fun m => (digitChar_beq_special m).1
  have b2 := fun m => (digitChar_beq_special m).2.1
  simp only [isoTimestamp, toISOString, pad4, pad3, pad2, String.toList,
    String.data_append]
  simp [removeColonDash, dropDotRest, replaceFirstT, List.filter,
    h3, h4, b1, b2]

theorem treeCatch_ne_ok (e : GhError) (b : String) (fs : List String) :
    treeCatch e ≠ .ok b fs := by
  unfold treeCatch
  repeat' split
  all_goals simp

theorem ne_empty_of_endsWith {q : String}
    (h : endsWithStr q ".md" = true ∨ endsWithStr q ".markdown" = true) :
    q ≠ "" := by
  rintro rfl
  rcases h with h | h <;> exact absurd h (by decide)

/-! ## Claim theorems -/

/-- Claim C5: for every input path, the generated branch name is the
slugified path (lowercased, characters outside `[a-z0-9-]` stripped,
truncated to 40 characters) concatenated with a compact fixed-width
(15-character) UTC timestamp, prefixed with `docs/`; in particular for
`"docs/Getting Started.md"` the slug component is `"docs-gettingstartedmd"`,
which is 1 to 40 characters drawn from `[a-z0-9-]` only. -/
theorem createBranchSlug_spec (path : String) (now : DateParts) :
    createBranchSlug path now =
      "docs/" ++ slugify path ++ "-" ++ isoTimestamp now ∧
    (slugify path).length ≤ 40 ∧
    (∀ c ∈ (slugify path).toList,
      ('a' ≤ c ∧ c ≤ 'z') ∨ ('0' ≤ c ∧ c ≤ '9') ∨ c = '-') ∧
    (isoTimestamp now).length = 15 ∧
    slugify "docs/Getting Started.md" = "docs-gettingstartedmd" ∧
    1 ≤ (slugify "docs/Getting Started.md").length ∧
    (slugify "docs/Getting Started.md").length ≤ 40 := by
  refine ⟨rfl, slugify_length_le path, slugify_chars path, ?_, by decide,
    by decide, by decide⟩
  rw [isoTimestamp_eq]
  rfl

/-- Claim C10: for the input path `"###"` (no letters, digits, slashes or
hyphens) the slug component is empty, so the generated branch name is
`docs/` immediately followed by `-` and the timestamp, with nothing in
between. -/
theorem createBranchSlug_empty_slug (now : DateParts) :
    slugify "###" = "" ∧
    createBranchSlug "###" now = "docs/-" ++ isoTimestamp now := by
  refine ⟨by decide, ?_⟩
  have h : ("docs/" ++ slugify "###" ++ "-" : String) = "docs/-" := by decide
  calc createBranchSlug "###" now
      = "docs/" ++ slugify "###" ++ "-" ++ isoTimestamp now := rfl
    _ = "docs/-" ++ isoTimestamp now := by rw [h]

/-- Claim C1: when the fetched upstream blob SHA differs from the
request's `baseSha`, publish returns HTTP 409 with a body carrying the
fresh upstream SHA and the base64-decoded upstream Markdown, and the
performed provider calls include no ref-creation, file-commit or
PR-creation call. -/
theorem publish_conflict_no_side_effects (req : CreatePRRequest)
    (now : DateParts) (p : PublishProvider) (rbb content sha nm pth : String)
    (ho : req.owner ≠ "") (hr : req.repo ≠ "") (hp : req.path ≠ "")
    (hs : req.baseSha ≠ "") (hm : req.markdown ≠ "")
    (hrb : resolveBaseBranch req p = .ok rbb)
    (hgc : p.getContent = .ok (.entry "file" content sha nm pth))
    (hne : sha ≠ req.baseSha) :
    (publish req now p).2 =
      ⟨409, .conflict "File changed upstream" sha (decodeBase64Utf8 content)⟩ ∧
    ∀ c ∈ (publish req now p).1,
      (∀ r s, c ≠ PCall.createRef r s) ∧
      (∀ a b d e f, c ≠ PCall.createFile a b d e f) ∧
      (∀ a b d e, c ≠ PCall.createPull a b d e) := by
  have hpub : publish req now p =
      (resolveBaseTrace req ++ [PCall.getContent rbb],
        ⟨409, .conflict "File changed upstream" sha (decodeBase64Utf8 content)⟩) := by
    unfold publish
    simp [ho, hr, hp, hs, hm, hrb, hgc, hne]
  rw [hpub]
  refine ⟨rfl, ?_⟩
  intro c hc
  unfold resolveBaseTrace at hc
  by_cases hbb : req.baseBranch = "" <;>
    simp [hbb] at hc <;>
    rcases hc with rfl | rfl <;>
    refine ⟨fun _ _ => by simp, fun _ _ _ _ _ => by simp, fun _ _ _ _ => by simp⟩

/-- Claim C2: when publish proceeds past the optimistic-concurrency check,
the file-commit provider call passes the blob SHA fetched in step 2 (the
one compared against `baseSha`) as the required parent blob SHA, and any
file-commit call in the trace carries exactly that SHA. -/
theorem publish_commit_parent_sha (req : CreatePRRequest) (now : DateParts)
    (p : PublishProvider) (rbb content sha nm pth baseCommitSha : String)
    (ho : req.owner ≠ "") (hr : req.repo ≠ "") (hp : req.path ≠ "")
    (hs : req.baseSha ≠ "") (hm : req.markdown ≠ "")
    (hrb : resolveBaseBranch req p = .ok rbb)
    (hgc : p.getContent = .ok (.entry "file" content sha nm pth))
    (heq : sha = req.baseSha)
    (hgr : p.getRef = .ok baseCommitSha)
    (hcr : p.createRef = .ok ()) :
    PCall.createFile req.path ("docs: update " ++ req.path ++ " via editor")
        (encodeUtf8Base64 req.markdown) (createBranchSlug req.path now) sha
      ∈ (publish req now p).1 ∧
    ∀ pa m ct br s, PCall.createFile pa m ct br s ∈ (publish req now p).1 →
      s = sha := by
  rcases hcf : p.createFile with e | u
  case error =>
    have hpub : (publish req now p).1 =
        resolveBaseTrace req ++ [PCall.getContent rbb, PCall.getRef rbb,
          PCall.createRef (createBranchSlug req.path now) baseCommitSha,
          PCall.createFile req.path ("docs: update " ++ req.path ++ " via editor")
            (encodeUtf8Base64 req.markdown) (createBranchSlug req.path now) sha] := by
      unfold publish
      simp [ho, hr, hp, hs, hm, hrb, hgc, heq, hgr, hcr, hcf]
    rw [hpub]
    constructor
    · simp
    · intro pa m ct br s hmem
      by_cases hbb : req.baseBranch = "" <;>
        simp [resolveBaseTrace, hbb] at hmem <;>
        simp_all
  case ok =>
    rcases hcp : p.createPull with e | pr <;>
    · have hpub : (publish req now p).1 =
          resolveBaseTrace req ++ [PCall.getContent rbb, PCall.getRef rbb,
            PCall.createRef (createBranchSlug req.path now) baseCommitSha,
            PCall.createFile req.path ("docs: update " ++ req.path ++ " via editor")
              (encodeUtf8Base64 req.markdown) (createBranchSlug req.path now) sha,
            PCall.createPull (if req.prTitle = "" then "Update " ++ req.path else req.prTitle)
              (if req.prBody = "" then "Edited via Notion-like editor" else req.prBody)
              (createBranchSlug req.path now) rbb] := by
        unfold publish
        simp [ho, hr, hp, hs, hm, hrb, hgc, heq, hgr, hcr, hcf, hcp]
      rw [hpub]
      constructor
      · simp
      · intro pa m ct br s hmem
        by_cases hbb : req.baseBranch = "" <;>
          simp [resolveBaseTrace, hbb] at hmem <;>
          simp_all

/-- Claim C3: when `baseSha` matches the upstream SHA and every provider
call succeeds, publish returns a success whose `prUrl` and `prNumber` are
exactly the `html_url` and `number` of the create-pull-request response. -/
theorem publish_success_pr_fields (req : CreatePRRequest) (now : DateParts)
    (p : PublishProvider) (rbb content nm pth baseCommitSha : String)
    (pr : PullData)
    (ho : req.owner ≠ "") (hr : req.repo ≠ "") (hp : req.path ≠ "")
    (hs : req.baseSha ≠ "") (hm : req.markdown ≠ "")
    (hrb : resolveBaseBranch req p = .ok rbb)
    (hgc : p.getContent = .ok (.entry "file" content req.baseSha nm pth))
    (hgr : p.getRef = .ok baseCommitSha)
    (hcr : p.createRef = .ok ())
    (hcf : p.createFile = .ok ())
    (hcp : p.createPull = .ok pr) :
    (publish req now p).2 = ⟨200, .success pr.html_url pr.number⟩ := by
  unfold publish
  simp [ho, hr, hp, hs, hm, hrb, hgc, hgr, hcr, hcf, hcp]

/-- Claim C4: a provider error raised at any call site of the publish
flow — default-branch lookup, content fetch, head-ref resolution, ref
creation, file commit or PR creation — is classified by status: 401 to
Unauthorized (401), 403 with a rate-limit signal to RateLimited (429),
403 otherwise to Unauthorized (403), 404 to NotFound (404), 409 to
Conflict (409, even when the error arises after the step-3 comparison),
and anything else to a generic 500. -/
theorem publish_error_mapping (req : CreatePRRequest) (now : DateParts)
    (p : PublishProvider) (e : GhError)
    (ho : req.owner ≠ "") (hr : req.repo ≠ "") (hp : req.path ≠ "")
    (hs : req.baseSha ≠ "") (hm : req.markdown ≠ "")
    (hstep :
      (req.baseBranch = "" ∧ p.getRepo = .error e) ∨
      ((∃ rbb, resolveBaseBranch req p = .ok rbb) ∧ p.getContent = .error e) ∨
      ((∃ rbb, resolveBaseBranch req p = .ok rbb) ∧
        (∃ content nm pth, p.getContent =
          .ok (.entry "file" content req.baseSha nm pth)) ∧
        (p.getRef = .error e ∨
         ((∃ s, p.getRef = .ok s) ∧ p.createRef = .error e) ∨
         ((∃ s, p.getRef = .ok s) ∧ p.createRef = .ok () ∧
           p.createFile = .error e) ∨
         ((∃ s, p.getRef = .ok s) ∧ p.createRef = .ok () ∧
           p.createFile = .ok () ∧ p.createPull = .error e)))) :
    (publish req now p).2 =
      if e.status = some 401 then ⟨401, .err "Unauthorized or insufficient scope"⟩
      else if e.status = some 403 then
        if hasRateLimitSignal e then ⟨429, .err "Rate limit exceeded"⟩
        else ⟨403, .err "Unauthorized or insufficient scope"⟩
      else if e.status = some 404 then ⟨404, .err "Repo or path not found"⟩
      else if e.status = some 409 then ⟨409, .err "File changed upstream"⟩
      else ⟨500, .err "Failed to create pull request"⟩ := by
  rcases hstep with ⟨hbb, hgr0⟩ | ⟨⟨rbb, hrb⟩, hgc⟩ |
    ⟨⟨rbb, hrb⟩, ⟨content, nm, pth, hgc⟩, hrest⟩
  · unfold publish
    simp [ho, hr, hp, hs, hm, resolveBaseBranch, hbb, hgr0, classifyPublishError]
  · unfold publish
    simp [ho, hr, hp, hs, hm, hrb, hgc, classifyPublishError]
  · rcases hrest with hgr | ⟨⟨s, hgr⟩, hcr⟩ | ⟨⟨s, hgr⟩, hcr, hcf⟩ |
      ⟨⟨s, hgr⟩, hcr, hcf, hcp⟩ <;>
      (unfold publish;
       simp [ho, hr, hp, hs, hm, hrb, hgc, hgr, classifyPublishError])
    · simp [hcr]
    · simp [hcr, hcf]
    · simp [hcr, hcf, hcp]

/-- Claim C9: a provider-reported 409 raised after the step-3 comparison
(at head-ref resolution, ref creation, file commit or PR creation) yields
a 409 response whose body is a bare error message and in particular not
the step-3 conflict payload with `upstreamSha`/`upstreamMarkdown`. -/
theorem publish_late_conflict_bare (req : CreatePRRequest) (now : DateParts)
    (p : PublishProvider) (rbb content sha nm pth : String) (e : GhError)
    (ho : req.owner ≠ "") (hr : req.repo ≠ "") (hp : req.path ≠ "")
    (hs : req.baseSha ≠ "") (hm : req.markdown ≠ "")
    (hrb : resolveBaseBranch req p = .ok rbb)
    (hgc : p.getContent = .ok (.entry "file" content sha nm pth))
    (heq : sha = req.baseSha)
    (he : e.status = some 409)
    (hstep : p.getRef = .error e ∨
      ((∃ s, p.getRef = .ok s) ∧ p.createRef = .error e) ∨
      ((∃ s, p.getRef = .ok s) ∧ p.createRef = .ok () ∧
        p.createFile = .error e) ∨
      ((∃ s, p.getRef = .ok s) ∧ p.createRef = .ok () ∧
        p.createFile = .ok () ∧ p.createPull = .error e)) :
    (publish req now p).2 = ⟨409, .err "File changed upstream"⟩ ∧
    ∀ msg us um, (publish req now p).2.body ≠ RespBody.conflict msg us um := by
  have hmain : (publish req now p).2 = ⟨409, .err "File changed upstream"⟩ := by
    rcases hstep with hgr | ⟨⟨s, hgr⟩, hcr⟩ | ⟨⟨s, hgr⟩, hcr, hcf⟩ |
      ⟨⟨s, hgr⟩, hcr, hcf, hcp⟩ <;>
      (unfold publish;
       simp [ho, hr, hp, hs, hm, hrb, hgc, heq, hgr, classifyPublishError, he])
    · simp [hcr, he]
    · simp [hcr, hcf, he]
    · simp [hcr, hcf, hcp, he]
  refine ⟨hmain, fun msg us um => ?_⟩
  rw [hmain]
  simp

/-- Claim C7: when the `branch` query parameter is omitted and the tree
listing succeeds, the returned branch is the provider's reported default
branch. -/
theorem treeGet_default_branch (owner repo : Option String)
    (p : TreeProvider) (d b : String) (files : List String)
    (hd : p.getRepo = .ok d)
    (hres : treeGet owner repo none p = .ok b files) :
    b = d := by
  unfold treeGet at hres
  by_cases hv : (blankParam owner || blankParam repo) = true
  · simp [hv] at hres
  · rw [if_neg hv] at hres
    rcases hgr : p.getRef with e | sha <;> rcases hgt : p.getTree with e2 | items <;>
      simp [blankParam, hd, hgr, hgt, treeCatch_ne_ok] at hres
    exact hres.1.symm

/-- Claim C6: a successful tree listing returns exactly the paths of blob
entries ending in `.md` or `.markdown`, lexicographically sorted, and
(provided the provider tree has no duplicate paths) without duplicates. -/
theorem treeGet_files_exact_sorted_nodup (owner repo branch : Option String)
    (p : TreeProvider) (items : List TreeItem) (b : String)
    (files : List String)
    (ht : p.getTree = .ok items)
    (hnd : (items.map TreeItem.path).Nodup)
    (hres : treeGet owner repo branch p = .ok b files) :
    (∀ q, q ∈ files ↔ ∃ it ∈ items, it.type = "blob" ∧ it.path = q ∧
        (endsWithStr q ".md" = true ∨ endsWithStr q ".markdown" = true)) ∧
    files.Sorted (· ≤ ·) ∧ files.Nodup := by
  have hfiles : files = List.insertionSort jsLe
      ((items.filter fun item =>
        item.type == "blob" && item.path != "" &&
          (endsWithStr item.path ".md" || endsWithStr item.path ".markdown")).map
        TreeItem.path) := by
    unfold treeGet at hres
    by_cases hv : (blankParam owner || blankParam repo) = true
    · simp [hv] at hres
    · rw [if_neg hv] at hres
      rcases hbr : (if blankParam branch then p.getRepo
          else .ok (branch.getD "")) with e | b0 <;>
        rcases hgr : p.getRef with e2 | sha <;>
        simp [hbr, hgr, ht, treeCatch_ne_ok] at hres
      exact hres.2.symm
  subst hfiles
  set paths := (items.filter fun item =>
    item.type == "blob" && item.path != "" &&
      (endsWithStr item.path ".md" || endsWithStr item.path ".markdown")).map
    TreeItem.path with hpaths
  have hsortedJs : List.Pairwise jsLe (List.insertionSort jsLe paths) :=
    @List.sorted_insertionSort String jsLe inferInstance ⟨jsLe_total⟩
      ⟨jsLe_trans⟩ paths
  have hperm : List.Perm (List.insertionSort jsLe paths) paths :=
    List.perm_insertionSort jsLe paths
  refine ⟨?_, ?_, ?_⟩
  · intro q
    rw [hperm.mem_iff, hpaths, List.mem_map]
    constructor
    · rintro ⟨it, hit, rfl⟩
      rw [List.mem_filter] at hit
      have hcond := hit.2
      simp only [Bool.and_eq_true, Bool.or_eq_true, beq_iff_eq, bne_iff_ne]
        at hcond
      exact ⟨it, hit.1, hcond.1.1, rfl, hcond.2⟩
    · rintro ⟨it, hit, htype, rfl, hends⟩
      refine ⟨it, ?_, rfl⟩
      rw [List.mem_filter]
      refine ⟨hit, ?_⟩
      simp only [Bool.and_eq_true, Bool.or_eq_true, beq_iff_eq, bne_iff_ne]
      exact ⟨⟨htype, ne_empty_of_endsWith hends⟩, hends⟩
  · exact hsortedJs.imp fun h => jsLe_imp_le _ _ h
  · have hpathsNodup : paths.Nodup := by
      rw [hpaths]
      exact List.Nodup.sublist ((List.filter_sublist _).map TreeItem.path) hnd
    exact hperm.nodup_iff.mpr hpathsNodup

/-- Claim C8: a file fetch whose path resolves at the provider to a
directory listing or to any non-file entry returns HTTP 400 "Not a file"
and never a success. -/
theorem fileGet_dir_bad_request (owner repo path ref : Option String)
    (p : FileProvider) (cd : ContentData)
    (ho : blankParam owner = false) (hr : blankParam repo = false)
    (hp : blankParam path = false)
    (hc : p.getContent = .ok cd)
    (hdir : cd = .listing ∨ ∃ ty content sha nm pth,
      cd = .entry ty content sha nm pth ∧ ty ≠ "file") :
    fileGet owner repo path ref p = .err 400 "Not a file" := by
  unfold fileGet
  rcases hdir with rfl | ⟨ty, content, sha, nm, pth, rfl, hty⟩
  · simp [ho, hr, hp, hc]
  · simp [ho, hr, hp, hc, hty]

/-! ## Witnesses: the claim theorems applied at concrete inputs -/

/-- Witness for `publish_conflict_no_side_effects` on the sample data. -/
theorem publish_conflict_no_side_effects_witness :
    ("sha2" : String) ≠ "sha1" ∧
    ((publish sampleReqStale sampleNow sampleProvider).2 =
      ⟨409, .conflict "File changed upstream" "sha2" (decodeBase64Utf8 "SGk=")⟩ ∧
     ∀ c ∈ (publish sampleReqStale sampleNow sampleProvider).1,
       (∀ r s, c ≠ PCall.createRef r s) ∧
       (∀ a b d e f, c ≠ PCall.createFile a b d e f) ∧
       (∀ a b d e, c ≠ PCall.createPull a b d e)) :=
  ⟨by decide,
   publish_conflict_no_side_effects sampleReqStale sampleNow sampleProvider
     "main" "SGk=" "sha2" "f.md" "f.md" (by decide) (by decide) (by decide)
     (by decide) (by decide) rfl rfl (by decide)⟩

/-- Witness for `publish_commit_parent_sha` on the sample data. -/
theorem publish_commit_parent_sha_witness :
    ("sha2" : String) = sampleReq.baseSha ∧
    (PCall.createFile sampleReq.path
        ("docs: update " ++ sampleReq.path ++ " via editor")
        (encodeUtf8Base64 sampleReq.markdown)
        (createBranchSlug sampleReq.path sampleNow) "sha2"
      ∈ (publish sampleReq sampleNow sampleProvider).1 ∧
     ∀ pa m ct br s, PCall.createFile pa m ct br s ∈
        (publish sampleReq sampleNow sampleProvider).1 → s = "sha2") :=
  ⟨rfl,
   publish_commit_parent_sha sampleReq sampleNow sampleProvider "main" "SGk="
     "sha2" "f.md" "f.md" "c0" (by decide) (by decide) (by decide) (by decide)
     (by decide) rfl rfl rfl rfl rfl⟩

/-- Witness for `publish_success_pr_fields` on the sample data. -/
theorem publish_success_pr_fields_witness :
    sampleProvider.createPull = .ok ⟨"u", 7⟩ ∧
    (publish sampleReq sampleNow sampleProvider).2 = ⟨200, .success "u" 7⟩ :=
  ⟨rfl,
   publish_success_pr_fields sampleReq sampleNow sampleProvider "main" "SGk="
     "f.md" "f.md" "c0" ⟨"u", 7⟩ (by decide) (by decide) (by decide)
     (by decide) (by decide) rfl rfl rfl rfl rfl rfl⟩

/-- Witness for `publish_error_mapping` on the sample data: a 403 with
the rate-limit header signal raised at the step-2 content fetch maps to
429, and a 409 raised at the post-step-3 ref creation maps to 409. -/
theorem publish_error_mapping_witness :
    sampleErr403.status = some 403 ∧ hasRateLimitSignal sampleErr403 = true ∧
    (publish sampleReq sampleNow sampleProviderContentErr).2 =
      ⟨429, .err "Rate limit exceeded"⟩ ∧
    sampleErr409.status = some 409 ∧
    (publish sampleReq sampleNow sampleProviderRefConflict).2 =
      ⟨409, .err "File changed upstream"⟩ :=
  ⟨rfl, by decide,
   publish_error_mapping sampleReq sampleNow sampleProviderContentErr
     sampleErr403 (by decide) (by decide) (by decide) (by decide) (by decide)
     (Or.inr (Or.inl ⟨⟨"main", rfl⟩, rfl⟩)),
   rfl,
   publish_error_mapping sampleReq sampleNow sampleProviderRefConflict
     sampleErr409 (by decide) (by decide) (by decide) (by decide) (by decide)
     (Or.inr (Or.inr ⟨⟨"main", rfl⟩, ⟨"SGk=", "f.md", "f.md", rfl⟩,
       Or.inr (Or.inl ⟨⟨"c0", rfl⟩, rfl⟩)⟩))⟩

/-- Witness for `publish_late_conflict_bare` on the sample data. -/
theorem publish_late_conflict_bare_witness :
    sampleErr409.status = some 409 ∧
    ((publish sampleReq sampleNow sampleProviderRefConflict).2 =
      ⟨409, .err "File changed upstream"⟩ ∧
     ∀ msg us um,
       (publish sampleReq sampleNow sampleProviderRefConflict).2.body ≠
         RespBody.conflict msg us um) :=
  ⟨rfl,
   publish_late_conflict_bare sampleReq sampleNow sampleProviderRefConflict
     "main" "SGk=" "sha2" "f.md" "f.md" sampleErr409 (by decide) (by decide)
     (by decide) (by decide) (by decide) rfl rfl rfl rfl
     (Or.inr (Or.inl ⟨⟨"c0", rfl⟩, rfl⟩))⟩

/-- Witness for `treeGet_files_exact_sorted_nodup` on the sample tree. -/
theorem treeGet_files_exact_sorted_nodup_witness :
    treeGet (some "o") (some "r") none sampleTreeProvider =
      .ok "main" ["a.md", "b.md", "x.markdown"] ∧
    ((∀ q, q ∈ (["a.md", "b.md", "x.markdown"] : List String) ↔
        ∃ it ∈ sampleTreeItems, it.type = "blob" ∧ it.path = q ∧
          (endsWithStr q ".md" = true ∨ endsWithStr q ".markdown" = true)) ∧
     List.Sorted (· ≤ ·) (["a.md", "b.md", "x.markdown"] : List String) ∧
     (["a.md", "b.md", "x.markdown"] : List String).Nodup) :=
  ⟨by decide,
   treeGet_files_exact_sorted_nodup (some "o") (some "r") none
     sampleTreeProvider sampleTreeItems "main" ["a.md", "b.md", "x.markdown"]
     rfl (by decide) (by decide)⟩

/-- Witness for `treeGet_default_branch` on the sample tree. -/
theorem treeGet_default_branch_witness :
    sampleTreeProvider.getRepo = .ok "main" ∧ ("main" : String) = "main" :=
  ⟨rfl,
   treeGet_default_branch (some "o") (some "r") sampleTreeProvider "main"
     "main" ["a.md", "b.md", "x.markdown"] rfl (by decide)⟩

/-- Witness for `fileGet_dir_bad_request` on the sample directory. -/
theorem fileGet_dir_bad_request_witness :
    sampleDirProvider.getContent = .ok .listing ∧
    fileGet (some "o") (some "r") (some "dir") none sampleDirProvider =
      .err 400 "Not a file" :=
  ⟨rfl,
   fileGet_dir_bad_request (some "o") (some "r") (some "dir") none
     sampleDirProvider .listing (by decide) (by decide) (by decide) rfl
     (Or.inl rfl)⟩

end MdViewer
